import Mathlib

/-!
Verification of the font-resolution engine (src/sugarloaf/src/font/mod.rs)
and the per-frame compositor (src/rio/src/term/mod.rs) of the rio terminal.

Font byte streams are modelled as abstract identifiers: the bundled assets
embedded at build time are distinct constants, and byte data copied out of
a host-discovered face is `hostBytes id`.  The host font system
(font_kit SystemSource) is modelled as a function from a family name to
the outcome of select_family_by_name: `none` for Err, `some faces` for a
family handle whose fonts() list is `faces`.
-/

/-- One font byte stream: a bundled asset, or the bytes copied out of a
host face (tagged by an identifier). -/
inductive FontData where
  | cascadiaRegular
  | cascadiaBold
  | cascadiaItalic
  | cascadiaBoldItalic
  | notoEmoji
  | dejavuMono
  | hostBytes (id : Nat)
  deriving DecidableEq, Repr

/-- font_kit style axis. -/
inductive FontStyle where
  | normal
  | italic
  | oblique
  deriving DecidableEq, Repr

/-- A host face after handle.load() succeeded: its style, its weight
already rounded to an integer (the source computes
`meta.weight.0.round() as i32`), and the outcome of copy_font_data
(`none` models a byte-extraction failure). -/
structure LoadedFace where
  style : FontStyle
  weight : Int
  data : Option FontData
  deriving DecidableEq, Repr

/-- A face descriptor produced by family enumeration; `load` is the
outcome of handle.load(), `none` modelling a load error. -/
structure FaceHandle where
  load : Option LoadedFace
  deriving DecidableEq, Repr

/-- The host font system: select_family_by_name returns Err (`none`) or a
family whose fonts() list may be empty. -/
abbrev SystemSource := String → Option (List FaceHandle)

/-- DEFAULT_FONT_NAME constant of src/sugarloaf/src/font/mod.rs. -/
def DEFAULT_FONT_NAME : String := "cascadiamono"

/-- Rust String::to_lowercase, modelled as per-character lowercasing of
the string's characters. -/
def toLowercase (s : String) : String :=
  ⟨s.data.map Char.toLower⟩

/-- font_arc_from_font: copy_font_data is propagated with `?`; on some
bytes the FontVec/FontArc conversion succeeds, so the result is exactly
the copied byte stream. -/
def font_arc_from_font (font : LoadedFace) : Option FontData :=
  font.data

/-- ComposedFontArc: the four text slots. -/
structure ComposedFontArc where
  regular : FontData
  bold : FontData
  italic : FontData
  bold_italic : FontData
  deriving DecidableEq, Repr

/-- The resolved bundle Font. -/
structure Font where
  text : ComposedFontArc
  symbol : FontData
  emojis : FontData
  unicode : FontData
  deriving DecidableEq, Repr

/-- The ComposedFontArc seeded with the four bundled CascadiaMono
fallback byte streams (Font::new builds this literal twice: as the
working bundle and as the final fallback). -/
def seedComposed : ComposedFontArc :=
  { regular := FontData.cascadiaRegular
    bold := FontData.cascadiaBold
    italic := FontData.cascadiaItalic
    bold_italic := FontData.cascadiaBoldItalic }

/-- One iteration of the classification loop of Font::new: load the
handle (skip on Err), then match on style and on the rounded weight,
overwriting the matching slot when font_arc_from_font succeeds. The
literal patterns `300 | 400 | 500` etc. of the source are written as
equality tests. -/
def classifyFace (acc : ComposedFontArc) (f : FaceHandle) : ComposedFontArc :=
  match f.load with
  | none => acc
  | some font =>
    match font.style with
    | FontStyle.normal =>
      if font.weight = 300 ∨ font.weight = 400 ∨ font.weight = 500 then
        match font_arc_from_font font with
        | some font_arc => { acc with regular := font_arc }
        | none => acc
      else if font.weight = 600 ∨ font.weight = 700 ∨ font.weight = 800 then
        match font_arc_from_font font with
        | some font_arc => { acc with bold := font_arc }
        | none => acc
      else acc
    | FontStyle.italic =>
      if font.weight = 400 then
        match font_arc_from_font font with
        | some font_arc => { acc with italic := font_arc }
        | none => acc
      else if font.weight = 700 then
        match font_arc_from_font font with
        | some font_arc => { acc with bold_italic := font_arc }
        | none => acc
      else acc
    | FontStyle.oblique => acc

/-- The bundle Font::new returns on the default-name path and on every
fallback path: all four text slots bundled CascadiaMono, symbol and
unicode the bundled DejaVu mono face, emojis the bundled Noto emoji face
(cfg(not(target_os = "macos")) build). -/
def fallbackFont : Font :=
  { text := seedComposed
    symbol := FontData.dejavuMono
    emojis := FontData.notoEmoji
    unicode := FontData.dejavuMono }

/-- Font::new of src/sugarloaf/src/font/mod.rs for the
cfg(not(target_os = "macos")) build, parametrised by the host font
system.  Returns the bundle together with a flag recording whether the
warn!("failed to load font ...") signal fired. -/
def Font.new (source : SystemSource) (font_name : String) : Font × Bool :=
  let font_arc_unicode := FontData.dejavuMono
  let font_arc_symbol := FontData.dejavuMono
  let is_default_font := toLowercase font_name = DEFAULT_FONT_NAME
  if is_default_font then
    ({ text := seedComposed
       symbol := font_arc_symbol
       emojis := FontData.notoEmoji
       unicode := font_arc_unicode }, false)
  else
    match source font_name with
    | some fonts =>
      if fonts.isEmpty then
        ({ text := seedComposed
           symbol := font_arc_symbol
           emojis := FontData.notoEmoji
           unicode := font_arc_unicode }, true)
      else
        ({ text := fonts.foldl classifyFace seedComposed
           symbol := font_arc_symbol
           emojis := FontData.notoEmoji
           unicode := font_arc_unicode }, false)
    | none =>
      ({ text := seedComposed
         symbol := font_arc_symbol
         emojis := FontData.notoEmoji
         unicode := font_arc_unicode }, true)

/-! Spec-side bucket definitions, written from the spec's words: a slot's
bucket is a (style, rounded-weight) predicate. -/

/-- Spec bucket for the regular slot: style Normal, weight rounding to
300, 400 or 500. -/
abbrev regularBucket (s : FontStyle) (w : Int) : Prop :=
  s = FontStyle.normal ∧ (w = 300 ∨ w = 400 ∨ w = 500)

/-- Spec bucket for the bold slot: style Normal, weight rounding to 600,
700 or 800. -/
abbrev boldBucket (s : FontStyle) (w : Int) : Prop :=
  s = FontStyle.normal ∧ (w = 600 ∨ w = 700 ∨ w = 800)

/-- Spec bucket for the italic slot: style Italic, weight rounding to
400. -/
abbrev italicBucket (s : FontStyle) (w : Int) : Prop :=
  s = FontStyle.italic ∧ w = 400

/-- Spec bucket for the bold_italic slot: style Italic, weight rounding
to 700. -/
abbrev boldItalicBucket (s : FontStyle) (w : Int) : Prop :=
  s = FontStyle.italic ∧ w = 700

/-- Spec: what a discovered face contributes to a bucket: it must load,
its (style, rounded weight) must lie in the bucket, and its byte data
must be extractable (per the spec, faces whose load or byte extraction
fails are skipped and contribute nothing). -/
def contribution (bucket : FontStyle → Int → Prop)
    [inst : ∀ s w, Decidable (bucket s w)]
    (f : FaceHandle) : Option FontData :=
  match f.load with
  | none => none
  | some font =>
    if bucket font.style font.weight then font.data else none

/-- Spec: last-match-wins over enumeration order — later faces matching
the bucket overwrite earlier ones, so the result is the contribution of
the last face that has one; `none` when no face matches. -/
def lastMatch (bucket : FontStyle → Int → Prop)
    [inst : ∀ s w, Decidable (bucket s w)] :
    List FaceHandle → Option FontData
  | [] => none
  | f :: fs =>
    match lastMatch bucket fs with
    | some d => some d
    | none => contribution bucket f

lemma classifyFace_regular (acc : ComposedFontArc) (f : FaceHandle) :
    (classifyFace acc f).regular =
      (contribution regularBucket f).getD acc.regular := by
  unfold classifyFace contribution font_arc_from_font
  cases f.load with
  | none => rfl
  | some font =>
    obtain ⟨s, w, d⟩ := font
    cases s <;> cases d <;>
      (try simp [regularBucket, boldBucket, italicBucket, boldItalicBucket]) <;>
      (try split_ifs) <;>
      (try simp_all [regularBucket, boldBucket, italicBucket,
        boldItalicBucket]) <;>
      (try omega)

lemma classifyFace_bold (acc : ComposedFontArc) (f : FaceHandle) :
    (classifyFace acc f).bold =
      (contribution boldBucket f).getD acc.bold := by
  unfold classifyFace contribution font_arc_from_font
  cases f.load with
  | none => rfl
  | some font =>
    obtain ⟨s, w, d⟩ := font
    cases s <;> cases d <;>
      (try simp [regularBucket, boldBucket, italicBucket, boldItalicBucket]) <;>
      (try split_ifs) <;>
      (try simp_all [regularBucket, boldBucket, italicBucket,
        boldItalicBucket]) <;>
      (try omega)

lemma classifyFace_italic (acc : ComposedFontArc) (f : FaceHandle) :
    (classifyFace acc f).italic =
      (contribution italicBucket f).getD acc.italic := by
  unfold classifyFace contribution font_arc_from_font
  cases f.load with
  | none => rfl
  | some font =>
    obtain ⟨s, w, d⟩ := font
    cases s <;> cases d <;>
      (try simp [regularBucket, boldBucket, italicBucket, boldItalicBucket]) <;>
      (try split_ifs) <;>
      (try simp_all [regularBucket, boldBucket, italicBucket,
        boldItalicBucket]) <;>
      (try omega)

lemma classifyFace_bold_italic (acc : ComposedFontArc) (f : FaceHandle) :
    (classifyFace acc f).bold_italic =
      (contribution boldItalicBucket f).getD acc.bold_italic := by
  unfold classifyFace contribution font_arc_from_font
  cases f.load with
  | none => rfl
  | some font =>
    obtain ⟨s, w, d⟩ := font
    cases s <;> cases d <;>
      (try simp [regularBucket, boldBucket, italicBucket, boldItalicBucket]) <;>
      (try split_ifs) <;>
      (try simp_all [regularBucket, boldBucket, italicBucket,
        boldItalicBucket]) <;>
      (try omega)

lemma option_getD_lastStep (o c : Option FontData) (x : FontData) :
    o.getD (c.getD x) =
      (match o with
        | some d => some d
        | none => c).getD x := by
  cases o <;> cases c <;> rfl

/-- The classification loop computes, for each slot, the last matching
contribution over enumeration order, defaulting to the initial slot
value. -/
lemma foldl_classifyFace (fonts : List FaceHandle) (init : ComposedFontArc) :
    fonts.foldl classifyFace init =
      { regular := (lastMatch regularBucket fonts).getD init.regular
        bold := (lastMatch boldBucket fonts).getD init.bold
        italic := (lastMatch italicBucket fonts).getD init.italic
        bold_italic :=
          (lastMatch boldItalicBucket fonts).getD init.bold_italic } := by
  induction fonts generalizing init with
  | nil => simp [lastMatch]
  | cons f fs ih =>
    simp only [List.foldl_cons, ih]
    rw [classifyFace_regular, classifyFace_bold, classifyFace_italic,
      classifyFace_bold_italic]
    congr 1 <;> rw [option_getD_lastStep] <;> rfl

/-- A discovered face is usable when its load succeeds and its byte data
extracts. -/
def faceOk (f : FaceHandle) : Bool :=
  match f.load with
  | none => false
  | some font => font.data.isSome

/-- A host font system with every unusable face dropped from every
family. -/
def dropFailing (source : SystemSource) : SystemSource :=
  fun name => (source name).map (List.filter faceOk)

lemma classifyFace_skip (acc : ComposedFontArc) (f : FaceHandle)
    (h : faceOk f = false) : classifyFace acc f = acc := by
  unfold classifyFace faceOk at *
  cases hl : f.load with
  | none => rfl
  | some font =>
    rw [hl] at h
    obtain ⟨s, w, d⟩ := font
    cases d with
    | none =>
      cases s <;> simp [font_arc_from_font] <;> split_ifs <;> rfl
    | some b => simp at h

lemma foldl_classifyFace_filter (fonts : List FaceHandle)
    (init : ComposedFontArc) :
    (fonts.filter faceOk).foldl classifyFace init =
      fonts.foldl classifyFace init := by
  induction fonts generalizing init with
  | nil => rfl
  | cons f fs ih =>
    by_cases h : faceOk f
    · simp [List.filter_cons, h, ih]
    · simp only [Bool.not_eq_true] at h
      simp [List.filter_cons, h, ih, classifyFace_skip _ _ h]

/-- C1: for every non-default requested family with a non-empty list of
discovered faces, each text slot of the resolved bundle equals the byte
data of the last face in enumeration order whose (style, rounded weight)
lies in that slot's bucket — a matching face being one that loads and
whose byte data extracts, the spec's skip rule — and equals the seeded
bundled fallback when no face matches; faces lying in no bucket (style
Oblique, or weight rounding to e.g. 450 or 900) update no slot. -/
theorem resolve_slots_last_match (source : SystemSource) (font_name : String)
    (fonts : List FaceHandle)
    (hname : toLowercase font_name ≠ DEFAULT_FONT_NAME)
    (hsel : source font_name = some fonts)
    (hne : fonts ≠ []) :
    (Font.new source font_name).1.text =
      { regular :=
          (lastMatch regularBucket fonts).getD FontData.cascadiaRegular
        bold := (lastMatch boldBucket fonts).getD FontData.cascadiaBold
        italic := (lastMatch italicBucket fonts).getD FontData.cascadiaItalic
        bold_italic :=
          (lastMatch boldItalicBucket fonts).getD
            FontData.cascadiaBoldItalic } := by
  unfold Font.new
  simp [hname, hsel, List.isEmpty_iff, hne, foldl_classifyFace, seedComposed]

/-- A host exposing one family, "menlo", with five faces: a regular
candidate, an oblique face, a weight-900 face, an italic face, and a
later regular candidate. -/
def sampleSource : SystemSource := fun name =>
  if name = "menlo" then
    some
      [⟨some ⟨FontStyle.normal, 400, some (FontData.hostBytes 1)⟩⟩,
       ⟨some ⟨FontStyle.oblique, 400, some (FontData.hostBytes 2)⟩⟩,
       ⟨some ⟨FontStyle.normal, 900, some (FontData.hostBytes 3)⟩⟩,
       ⟨some ⟨FontStyle.italic, 400, some (FontData.hostBytes 4)⟩⟩,
       ⟨some ⟨FontStyle.normal, 500, some (FontData.hostBytes 5)⟩⟩]
  else none

/-- Witness for C1 at a concrete host: the regular slot takes the last
regular-bucket face (hostBytes 5), the italic slot takes hostBytes 4,
the oblique and weight-900 faces update nothing, and bold/bold_italic
keep the seeded fallback. -/
theorem resolve_slots_last_match_witness :
    (toLowercase "menlo" ≠ DEFAULT_FONT_NAME ∧
      sampleSource "menlo" =
        some
          [⟨some ⟨FontStyle.normal, 400, some (FontData.hostBytes 1)⟩⟩,
           ⟨some ⟨FontStyle.oblique, 400, some (FontData.hostBytes 2)⟩⟩,
           ⟨some ⟨FontStyle.normal, 900, some (FontData.hostBytes 3)⟩⟩,
           ⟨some ⟨FontStyle.italic, 400, some (FontData.hostBytes 4)⟩⟩,
           ⟨some ⟨FontStyle.normal, 500, some (FontData.hostBytes 5)⟩⟩]) ∧
    (Font.new sampleSource "menlo").1.text =
      { regular := FontData.hostBytes 5
        bold := FontData.cascadiaBold
        italic := FontData.hostBytes 4
        bold_italic := FontData.cascadiaBoldItalic } := by
  refine ⟨⟨by decide, by decide⟩, ?_⟩
  have h := resolve_slots_last_match sampleSource "menlo"
    [⟨some ⟨FontStyle.normal, 400, some (FontData.hostBytes 1)⟩⟩,
     ⟨some ⟨FontStyle.oblique, 400, some (FontData.hostBytes 2)⟩⟩,
     ⟨some ⟨FontStyle.normal, 900, some (FontData.hostBytes 3)⟩⟩,
     ⟨some ⟨FontStyle.italic, 400, some (FontData.hostBytes 4)⟩⟩,
     ⟨some ⟨FontStyle.normal, 500, some (FontData.hostBytes 5)⟩⟩]
    (by decide) (by decide) (by decide)
  rw [h]
  decide

/-- C2: resolve never signals failure — its return type carries no error,
and every host outcome is handled: dropping from every family exactly the
faces whose load or byte extraction fails leaves the resolved bundle
unchanged, so an individual failing face contributes nothing and causes
no abort. -/
theorem resolve_failures_contribute_nothing (source : SystemSource)
    (font_name : String) :
    (Font.new (dropFailing source) font_name).1 =
      (Font.new source font_name).1 := by
  unfold Font.new
  by_cases hdef : toLowercase font_name = DEFAULT_FONT_NAME
  · simp [hdef]
  · simp only [hdef, if_false]
    cases hsrc : source font_name with
    | none => simp [dropFailing, hsrc]
    | some fonts =>
      simp only [dropFailing, hsrc, Option.map_some]
      have hl := foldl_classifyFace_filter fonts seedComposed
      cases hemp : fonts.isEmpty with
      | true =>
        rw [List.isEmpty_iff.mp hemp]
        simp
      | false =>
        cases hfemp : (fonts.filter faceOk).isEmpty with
        | true =>
          rw [List.isEmpty_iff.mp hfemp] at hl
          simp only [List.foldl_nil] at hl
          simp [hemp, hfemp, ← hl]
        | false =>
          simp [hemp, hfemp, hl]

/-- C3: a non-default family that is absent (enumeration error) or whose
face list is empty yields the failed-to-load warning and a bundle whose
four text slots are exactly the four bundled CascadiaMono fallback byte
streams. -/
theorem resolve_absent_family_fallback (source : SystemSource)
    (font_name : String)
    (hname : toLowercase font_name ≠ DEFAULT_FONT_NAME)
    (habs : source font_name = none ∨ source font_name = some []) :
    Font.new source font_name = (fallbackFont, true) := by
  unfold Font.new
  rcases habs with h | h <;> simp [hname, h, fallbackFont]

/-- Witness for C3: the family "arial" on a host with no fonts at all. -/
theorem resolve_absent_family_fallback_witness :
    (toLowercase "arial" ≠ DEFAULT_FONT_NAME ∧
      (fun _ : String => (none : Option (List FaceHandle))) "arial" = none) ∧
    Font.new (fun _ => none) "arial" = (fallbackFont, true) :=
  ⟨⟨by decide, rfl⟩,
    resolve_absent_family_fallback (fun _ => none) "arial" (by decide)
      (Or.inl rfl)⟩

/-- C4: a requested name that case-insensitively equals the built-in
default never touches the host font system — the result is the same for
any two hosts — and is the bundle built purely from the bundled byte
streams, with no warning. -/
theorem resolve_default_never_queries (s1 s2 : SystemSource)
    (font_name : String)
    (hname : toLowercase font_name = DEFAULT_FONT_NAME) :
    Font.new s1 font_name = Font.new s2 font_name ∧
      Font.new s1 font_name = (fallbackFont, false) := by
  unfold Font.new
  simp [hname, fallbackFont]

/-- Witness for C4: "CascadiaMono" resolves identically on an empty host
and on the sample host. -/
theorem resolve_default_never_queries_witness :
    toLowercase "CascadiaMono" = DEFAULT_FONT_NAME ∧
      (Font.new (fun _ => none) "CascadiaMono" =
        Font.new sampleSource "CascadiaMono" ∧
      Font.new (fun _ => none) "CascadiaMono" = (fallbackFont, false)) :=
  ⟨by decide,
    resolve_default_never_queries (fun _ => none) sampleSource "CascadiaMono"
      (by decide)⟩

/-- C6: for every requested family and every lookup outcome, the emoji
slot is the bundled Noto emoji byte stream, and (non-macOS build) the
symbol and unicode-fallback slots are both the single bundled DejaVu
fallback face; none of the three depends on the family-name branch
taken. -/
theorem resolve_auxiliary_slots (source : SystemSource)
    (font_name : String) :
    (Font.new source font_name).1.emojis = FontData.notoEmoji ∧
      (Font.new source font_name).1.symbol = FontData.dejavuMono ∧
      (Font.new source font_name).1.unicode = FontData.dejavuMono := by
  unfold Font.new
  by_cases hdef : toLowercase font_name = DEFAULT_FONT_NAME
  · simp [hdef]
  · simp only [hdef, if_false]
    cases hsrc : source font_name with
    | none => simp
    | some fonts => by_cases hemp : fonts.isEmpty <;> simp [hemp]

/-!
Frame compositor: Term::draw of src/rio/src/term/mod.rs, embedded as a
function from the Term state and the frame's inputs to the ordered trace
of commands it records on the single command encoder, or to the panic it
raises (`expect("Get next frame")`, and the u32 subtraction
`size.width - 40` under debug semantics).  The shared text source
(Arc<Mutex<String>>) is passed as the string the producer currently
holds; the compositor receives it read-only.  The text-rendering
collaborator (crate::text's GlyphBrush, a module of this repository not
under src/) is Modelled from the spec: drawQueued flushes the queued run
as one draw submission into the same command stream and the same color
attachment, sharing the frame's single render pass, and succeeds.
-/

/-- One recorded command of a Term::draw call.  View identifiers equal
the identifier of the acquired image they were created from. -/
inductive GpuEvent where
  | createEncoder
  | acquireImage (id : Nat)
  | createPipelineLayout
  | createPipeline
  | beginRenderPass (view : Nat)
  | setPipeline
  | setVertexBuffer
  | setIndexBuffer
  | drawBar (indices : Nat) (view : Nat)
  | lockShared
  | queueText (s : String) (bounds_w : Nat) (bounds_h : Nat)
  | unlockShared
  | drawQueuedText (view : Nat)
  | beltFinish
  | submit
  | present (id : Nat)
  | beltRecall
  deriving DecidableEq, Repr

/-- The two panics Term::draw can raise for a frame. -/
inductive DrawError where
  | acquireFailed
  | widthUnderflow
  deriving DecidableEq, Repr

/-- The Term state Term::draw reads: the stored surface size and the
bar's index count. -/
structure TermState where
  width : Nat
  height : Nat
  num_indices : Nat
  deriving DecidableEq, Repr

/-- Rust u32 subtraction under debug semantics: defined only when no
underflow occurs, a panic otherwise. -/
def u32Sub (a b : Nat) : Option Nat :=
  if b ≤ a then some (a - b) else none

/-- Term::draw.  `acquired` is the outcome of
surface.get_current_texture() (`none` models a lost surface, on which the
source's expect panics).  The trace lists the recorded commands in source
order: encoder creation, image acquisition, pipeline layout and pipeline
creation, the render pass with the bar's pipeline, buffers and draw call,
then the text block — the Section's bounds subtraction, the lock on the
shared string, the queuing of the snapshot, the release at the end of the
queue statement, and the collaborator's flush — then belt finish, queue
submit, present, and belt recall. -/
def Term.draw (st : TermState) (acquired : Option Nat) (output : String) :
    Except DrawError (List GpuEvent) :=
  match acquired with
  | none => Except.error DrawError.acquireFailed
  | some frame =>
    match u32Sub st.width 40 with
    | none => Except.error DrawError.widthUnderflow
    | some bounds_w =>
      Except.ok
        [GpuEvent.createEncoder,
         GpuEvent.acquireImage frame,
         GpuEvent.createPipelineLayout,
         GpuEvent.createPipeline,
         GpuEvent.beginRenderPass frame,
         GpuEvent.setPipeline,
         GpuEvent.setVertexBuffer,
         GpuEvent.setIndexBuffer,
         GpuEvent.drawBar st.num_indices frame,
         GpuEvent.lockShared,
         GpuEvent.queueText output bounds_w st.height,
         GpuEvent.unlockShared,
         GpuEvent.drawQueuedText frame,
         GpuEvent.beltFinish,
         GpuEvent.submit,
         GpuEvent.present frame,
         GpuEvent.beltRecall]

def GpuEvent.isAcquire : GpuEvent → Bool
  | GpuEvent.acquireImage _ => true
  | _ => false

def GpuEvent.isBeginPass : GpuEvent → Bool
  | GpuEvent.beginRenderPass _ => true
  | _ => false

def GpuEvent.isBarDraw : GpuEvent → Bool
  | GpuEvent.drawBar _ _ => true
  | _ => false

def GpuEvent.isTextDraw : GpuEvent → Bool
  | GpuEvent.drawQueuedText _ => true
  | _ => false

def GpuEvent.isSubmit : GpuEvent → Bool
  | GpuEvent.submit => true
  | _ => false

def GpuEvent.isPresent : GpuEvent → Bool
  | GpuEvent.present _ => true
  | _ => false

def GpuEvent.isBeltFinish : GpuEvent → Bool
  | GpuEvent.beltFinish => true
  | _ => false

def GpuEvent.isBeltRecall : GpuEvent → Bool
  | GpuEvent.beltRecall => true
  | _ => false

def GpuEvent.isLockEvt : GpuEvent → Bool
  | GpuEvent.lockShared => true
  | GpuEvent.unlockShared => true
  | _ => false

/-- Number of events of a trace satisfying a predicate. -/
def countEvt (p : GpuEvent → Bool) (t : List GpuEvent) : Nat :=
  (t.filter p).length

lemma draw_ok (st : TermState) (frame : Nat) (output : String)
    (hw : 40 ≤ st.width) :
    Term.draw st (some frame) output =
      Except.ok
        [GpuEvent.createEncoder,
         GpuEvent.acquireImage frame,
         GpuEvent.createPipelineLayout,
         GpuEvent.createPipeline,
         GpuEvent.beginRenderPass frame,
         GpuEvent.setPipeline,
         GpuEvent.setVertexBuffer,
         GpuEvent.setIndexBuffer,
         GpuEvent.drawBar st.num_indices frame,
         GpuEvent.lockShared,
         GpuEvent.queueText output (st.width - 40) st.height,
         GpuEvent.unlockShared,
         GpuEvent.drawQueuedText frame,
         GpuEvent.beltFinish,
         GpuEvent.submit,
         GpuEvent.present frame,
         GpuEvent.beltRecall] := by
  unfold Term.draw u32Sub
  rw [if_pos hw]

/-- C5: in every successful Term::draw call the bar geometry draw is
recorded strictly before the text draw in the same command stream (the
single encoder trace), and the frame has exactly one render pass, shared
by the bar and text draw submissions, both targeting the view of the
acquired image (the spec-modelled text collaborator draws into the pass
it is handed). -/
theorem draw_bar_before_text_shared_pass (st : TermState) (frame : Nat)
    (output : String) (hw : 40 ≤ st.width) :
    ∃ t, Term.draw st (some frame) output = Except.ok t ∧
      countEvt GpuEvent.isBeginPass t = 1 ∧
      GpuEvent.beginRenderPass frame ∈ t ∧
      GpuEvent.drawBar st.num_indices frame ∈ t ∧
      GpuEvent.drawQueuedText frame ∈ t ∧
      t.findIdx GpuEvent.isBeginPass < t.findIdx GpuEvent.isBarDraw ∧
      t.findIdx GpuEvent.isBarDraw < t.findIdx GpuEvent.isTextDraw := by
  refine ⟨_, draw_ok st frame output hw, ?_, ?_, ?_, ?_, ?_, ?_⟩ <;>
    simp [countEvt, List.findIdx_cons, GpuEvent.isBeginPass,
      GpuEvent.isBarDraw, GpuEvent.isTextDraw]

/-- Witness for C5 at a concrete state. -/
theorem draw_bar_before_text_shared_pass_witness :
    40 ≤ (TermState.mk 800 600 6).width ∧
    (∃ t, Term.draw (TermState.mk 800 600 6) (some 0) "hello" =
        Except.ok t ∧
      countEvt GpuEvent.isBeginPass t = 1 ∧
      GpuEvent.beginRenderPass 0 ∈ t ∧
      GpuEvent.drawBar (TermState.mk 800 600 6).num_indices 0 ∈ t ∧
      GpuEvent.drawQueuedText 0 ∈ t ∧
      t.findIdx GpuEvent.isBeginPass < t.findIdx GpuEvent.isBarDraw ∧
      t.findIdx GpuEvent.isBarDraw < t.findIdx GpuEvent.isTextDraw) :=
  ⟨by decide,
    draw_bar_before_text_shared_pass (TermState.mk 800 600 6) 0 "hello"
      (by decide)⟩

/-- C7: every successful Term::draw call acquires exactly one image,
submits exactly one command stream, and presents exactly one image — the
image it acquired — in the order belt finish, queue submit, present,
belt recall; and two sequential calls acquire, submit and present
exactly two, one apiece. -/
theorem draw_one_acquire_submit_present (st1 st2 : TermState)
    (f1 f2 : Nat) (o1 o2 : String)
    (h1 : 40 ≤ st1.width) (h2 : 40 ≤ st2.width) :
    ∃ t1 t2, Term.draw st1 (some f1) o1 = Except.ok t1 ∧
      Term.draw st2 (some f2) o2 = Except.ok t2 ∧
      countEvt GpuEvent.isAcquire t1 = 1 ∧
      countEvt GpuEvent.isSubmit t1 = 1 ∧
      countEvt GpuEvent.isPresent t1 = 1 ∧
      GpuEvent.acquireImage f1 ∈ t1 ∧
      GpuEvent.present f1 ∈ t1 ∧
      t1.findIdx GpuEvent.isBeltFinish < t1.findIdx GpuEvent.isSubmit ∧
      t1.findIdx GpuEvent.isSubmit < t1.findIdx GpuEvent.isPresent ∧
      t1.findIdx GpuEvent.isPresent < t1.findIdx GpuEvent.isBeltRecall ∧
      countEvt GpuEvent.isAcquire (t1 ++ t2) = 2 ∧
      countEvt GpuEvent.isSubmit (t1 ++ t2) = 2 ∧
      countEvt GpuEvent.isPresent (t1 ++ t2) = 2 := by
  refine ⟨_, _, draw_ok st1 f1 o1 h1, draw_ok st2 f2 o2 h2, ?_, ?_, ?_,
    ?_, ?_, ?_, ?_, ?_, ?_, ?_, ?_⟩ <;>
    simp [countEvt, List.findIdx_cons, GpuEvent.isAcquire,
      GpuEvent.isSubmit, GpuEvent.isPresent, GpuEvent.isBeltFinish,
      GpuEvent.isBeltRecall]

/-- Witness for C7 at two concrete sequential calls. -/
theorem draw_one_acquire_submit_present_witness :
    (40 ≤ (TermState.mk 800 600 6).width ∧
      40 ≤ (TermState.mk 1024 768 6).width) ∧
    (∃ t1 t2,
      Term.draw (TermState.mk 800 600 6) (some 0) "a" = Except.ok t1 ∧
      Term.draw (TermState.mk 1024 768 6) (some 1) "b" = Except.ok t2 ∧
      countEvt GpuEvent.isAcquire t1 = 1 ∧
      countEvt GpuEvent.isSubmit t1 = 1 ∧
      countEvt GpuEvent.isPresent t1 = 1 ∧
      GpuEvent.acquireImage 0 ∈ t1 ∧
      GpuEvent.present 0 ∈ t1 ∧
      t1.findIdx GpuEvent.isBeltFinish < t1.findIdx GpuEvent.isSubmit ∧
      t1.findIdx GpuEvent.isSubmit < t1.findIdx GpuEvent.isPresent ∧
      t1.findIdx GpuEvent.isPresent < t1.findIdx GpuEvent.isBeltRecall ∧
      countEvt GpuEvent.isAcquire (t1 ++ t2) = 2 ∧
      countEvt GpuEvent.isSubmit (t1 ++ t2) = 2 ∧
      countEvt GpuEvent.isPresent (t1 ++ t2) = 2) :=
  ⟨⟨by decide, by decide⟩,
    draw_one_acquire_submit_present (TermState.mk 800 600 6)
      (TermState.mk 1024 768 6) 0 1 "a" "b" (by decide) (by decide)⟩

/-- C8: in every successful Term::draw call the mutual-exclusion lock on
the shared text source is taken exactly around the copy of the current
string into the queued run, is released before the queued text is drawn,
and is released before the GPU submission; the compositor receives the
shared string read-only and the queued run carries it verbatim. -/
theorem draw_lock_held_only_for_copy (st : TermState) (frame : Nat)
    (output : String) (hw : 40 ≤ st.width) :
    ∃ pre post,
      Term.draw st (some frame) output =
        Except.ok (pre ++
          GpuEvent.lockShared ::
            GpuEvent.queueText output (st.width - 40) st.height ::
              GpuEvent.unlockShared :: post) ∧
      (∀ e ∈ pre, GpuEvent.isLockEvt e = false) ∧
      (∀ e ∈ post, GpuEvent.isLockEvt e = false) ∧
      GpuEvent.drawQueuedText frame ∈ post ∧
      GpuEvent.submit ∈ post := by
  refine ⟨[GpuEvent.createEncoder,
      GpuEvent.acquireImage frame,
      GpuEvent.createPipelineLayout,
      GpuEvent.createPipeline,
      GpuEvent.beginRenderPass frame,
      GpuEvent.setPipeline,
      GpuEvent.setVertexBuffer,
      GpuEvent.setIndexBuffer,
      GpuEvent.drawBar st.num_indices frame],
    [GpuEvent.drawQueuedText frame,
      GpuEvent.beltFinish,
      GpuEvent.submit,
      GpuEvent.present frame,
      GpuEvent.beltRecall], ?_, ?_, ?_, ?_, ?_⟩
  · rw [draw_ok st frame output hw]
    rfl
  · intro e he
    fin_cases he <;> rfl
  · intro e he
    fin_cases he <;> rfl
  · simp
  · simp

/-- Witness for C8 at a concrete state. -/
theorem draw_lock_held_only_for_copy_witness :
    40 ≤ (TermState.mk 800 600 6).width ∧
    (∃ pre post,
      Term.draw (TermState.mk 800 600 6) (some 0) "ls" =
        Except.ok (pre ++
          GpuEvent.lockShared ::
            GpuEvent.queueText "ls" ((TermState.mk 800 600 6).width - 40)
                (TermState.mk 800 600 6).height ::
              GpuEvent.unlockShared :: post) ∧
      (∀ e ∈ pre, GpuEvent.isLockEvt e = false) ∧
      (∀ e ∈ post, GpuEvent.isLockEvt e = false) ∧
      GpuEvent.drawQueuedText 0 ∈ post ∧
      GpuEvent.submit ∈ post) :=
  ⟨by decide,
    draw_lock_held_only_for_copy (TermState.mk 800 600 6) 0 "ls"
      (by decide)⟩

/-- C9: a successful Term::draw call with the empty text string still
records the bar draw call, still queues the empty run (a no-op glyph
run, not an error), and still submits and presents the frame. -/
theorem draw_empty_text_full_frame (st : TermState) (frame : Nat)
    (hw : 40 ≤ st.width) :
    ∃ t, Term.draw st (some frame) "" = Except.ok t ∧
      GpuEvent.drawBar st.num_indices frame ∈ t ∧
      GpuEvent.queueText "" (st.width - 40) st.height ∈ t ∧
      GpuEvent.submit ∈ t ∧
      GpuEvent.present frame ∈ t := by
  refine ⟨_, draw_ok st frame "" hw, ?_, ?_, ?_, ?_⟩ <;> simp

/-- Witness for C9 at a concrete state. -/
theorem draw_empty_text_full_frame_witness :
    40 ≤ (TermState.mk 800 600 6).width ∧
    (∃ t, Term.draw (TermState.mk 800 600 6) (some 0) "" = Except.ok t ∧
      GpuEvent.drawBar (TermState.mk 800 600 6).num_indices 0 ∈ t ∧
      GpuEvent.queueText "" ((TermState.mk 800 600 6).width - 40)
          (TermState.mk 800 600 6).height ∈ t ∧
      GpuEvent.submit ∈ t ∧
      GpuEvent.present 0 ∈ t) :=
  ⟨by decide, draw_empty_text_full_frame (TermState.mk 800 600 6) 0
    (by decide)⟩

/-- C10: the text-run bounds computation `size.width - 40` is unsigned
with no guard: for a stored width below 40 the subtraction underflows
(a panic under debug semantics) and the frame aborts, while for width at
least 40 the call is well-defined; the spec states no such
precondition. -/
theorem draw_width_precondition (st : TermState) (frame : Nat)
    (output : String) :
    (st.width < 40 →
      u32Sub st.width 40 = none ∧
        Term.draw st (some frame) output =
          Except.error DrawError.widthUnderflow) ∧
    (40 ≤ st.width →
      u32Sub st.width 40 = some (st.width - 40) ∧
        ∃ t, Term.draw st (some frame) output = Except.ok t) := by
  constructor
  · intro h
    have hsub : u32Sub st.width 40 = none := by
      unfold u32Sub
      rw [if_neg (by omega)]
    refine ⟨hsub, ?_⟩
    unfold Term.draw
    rw [hsub]
  · intro h
    have hsub : u32Sub st.width 40 = some (st.width - 40) := by
      unfold u32Sub
      rw [if_pos h]
    exact ⟨hsub, _, draw_ok st frame output h⟩

/-- Witness for C10: width 39 panics, width 40 succeeds. -/
theorem draw_width_precondition_witness :
    ((TermState.mk 39 600 6).width < 40 ∧
      u32Sub (TermState.mk 39 600 6).width 40 = none ∧
        Term.draw (TermState.mk 39 600 6) (some 0) "x" =
          Except.error DrawError.widthUnderflow) ∧
    (40 ≤ (TermState.mk 40 600 6).width ∧
      u32Sub (TermState.mk 40 600 6).width 40 = some 0 ∧
        ∃ t, Term.draw (TermState.mk 40 600 6) (some 0) "x" =
          Except.ok t) :=
  ⟨⟨by decide,
      (draw_width_precondition (TermState.mk 39 600 6) 0 "x").1
        (by decide)⟩,
    ⟨by decide,
      ((draw_width_precondition (TermState.mk 40 600 6) 0 "x").2
          (by decide)).1,
      ((draw_width_precondition (TermState.mk 40 600 6) 0 "x").2
          (by decide)).2⟩⟩
